import Mathlib

/-!
Shallow embedding of the PumpIt workout-tracking core
(src/components/workout-manager.tsx, src/components/progress-list.tsx and
the exercise-item / exercise-list components).

Dates (`Date` values, produced by `new Date()` / `Date.now()`) are modelled
as `Nat` milliseconds since the epoch.  JavaScript numbers for exercise
weights are modelled as `ℚ`; `sets` / `reps` are non-negative integers
(the edit path coerces them with `parseInt(text) || 0`).

The async key-value store (`AsyncStorage`) is modelled as a record of the
three keys the app uses (`@PumpIt:workouts`, `@PumpIt:selectedWorkout`,
`@PumpIt:workoutSessions`), each holding an optional parsed JSON value;
`JSON.stringify`/`JSON.parse` round-trip all fields structurally except
dates, which stringify to ISO strings and are restored by `new Date(s)`.
That external date ↔ string codec is modelled by the concrete injective
encoding `dateToISO` / `isoToDate` below, whose round-trip property is the
behaviour the app relies on.

Wall-clock inputs (`Date.now()` for ids, `new Date()` for timestamps) are
passed to the operations as explicit parameters: they are external inputs
and nothing prevents two rapid calls from observing the same value.
-/

namespace PumpIt

/-- An exercise row (src/components/exercise-item.tsx, `Exercise`). -/
structure Exercise where
  id : String
  name : String
  sets : Nat
  reps : Nat
  weight : ℚ
deriving Repr, DecidableEq

/-- A workout (src/components/workout-manager.tsx, `Workout`). -/
structure Workout where
  id : String
  name : String
  exercises : List Exercise
  createdAt : Nat
deriving Repr, DecidableEq

/-- A completed-workout record (workout-manager.tsx, `WorkoutSession`). -/
structure WorkoutSession where
  id : String
  workoutId : String
  workoutName : String
  exercises : List Exercise
  completedAt : Nat
  totalSets : Nat
  totalVolume : ℚ
deriving Repr, DecidableEq

/-- The shape a `Workout` has inside the store: `JSON.stringify` turns the
`createdAt` date into an ISO string, all other fields survive structurally. -/
structure StoredWorkout where
  id : String
  name : String
  exercises : List Exercise
  createdAt : String
deriving Repr, DecidableEq

/-- The shape a `WorkoutSession` has inside the store (`completedAt` is an
ISO string there). -/
structure StoredSession where
  id : String
  workoutId : String
  workoutName : String
  exercises : List Exercise
  completedAt : String
  totalSets : Nat
  totalVolume : ℚ
deriving Repr, DecidableEq

/-- JavaScript's `String.prototype.trim`: removes leading and trailing
whitespace. -/
def jsTrim (s : String) : String :=
  String.mk (((s.data.dropWhile Char.isWhitespace).reverse.dropWhile Char.isWhitespace).reverse)

/-- Decimal digit character back to its value (models what `new Date`
does when reading a serialized date back). -/
def charToDigit (c : Char) : Nat := c.toNat - 48

/-- Little-endian base-10 digits, computed with structural recursion on a
fuel argument. -/
def digitsOfAux : Nat → Nat → List Nat
  | _, 0 => []
  | 0, _ + 1 => []
  | fuel + 1, n + 1 => (n + 1) % 10 :: digitsOfAux fuel ((n + 1) / 10)

/-- Little-endian base-10 digits of `n` (agrees with `Nat.digits 10 n`). -/
def digitsOf (n : Nat) : List Nat := digitsOfAux n n

theorem digitsOfAux_eq_digits (fuel : Nat) :
    ∀ n, n ≤ fuel → digitsOfAux fuel n = Nat.digits 10 n := by
  induction fuel with
  | zero =>
      intro n hn
      interval_cases n
      simp [digitsOfAux]
  | succ fuel ih =>
      intro n hn
      match n with
      | 0 => simp [digitsOfAux]
      | m + 1 =>
          rw [digitsOfAux, Nat.digits_def' (by norm_num : 1 < 10) (Nat.succ_pos m)]
          congr 1
          exact ih _ (Nat.le_trans (Nat.le_of_lt_succ (Nat.div_lt_self (Nat.succ_pos m) (by norm_num)))
            (Nat.le_of_succ_le_succ hn))

theorem digitsOf_eq_digits (n : Nat) : digitsOf n = Nat.digits 10 n :=
  digitsOfAux_eq_digits n n (Nat.le_refl n)

/-- Model of the external date → ISO-string serialization performed by
`JSON.stringify` on a `Date`: a concrete injective rendering of the epoch
milliseconds as a digit string (most significant digit first). -/
def dateToISO (t : Nat) : String :=
  String.mk (((digitsOf t).map Nat.digitChar).reverse)

/-- Model of `new Date(s)` applied to a serialized date string: decodes the
digit string back to epoch milliseconds. -/
def isoToDate (s : String) : Nat :=
  Nat.ofDigits 10 ((s.data.map charToDigit).reverse)

theorem charToDigit_digitChar {d : Nat} (hd : d < 10) :
    charToDigit (Nat.digitChar d) = d := by
  interval_cases d <;> rfl

theorem isoToDate_dateToISO (t : Nat) : isoToDate (dateToISO t) = t := by
  unfold isoToDate dateToISO
  rw [digitsOf_eq_digits]
  have hdata : (String.mk (((Nat.digits 10 t).map Nat.digitChar).reverse)).data
      = ((Nat.digits 10 t).map Nat.digitChar).reverse := rfl
  rw [hdata, List.map_reverse, List.reverse_reverse, List.map_map]
  have hmap : (Nat.digits 10 t).map (charToDigit ∘ Nat.digitChar)
      = Nat.digits 10 t := by
    have := List.map_congr_left (l := Nat.digits 10 t)
      (f := charToDigit ∘ Nat.digitChar) (g := id)
      (fun d hd => charToDigit_digitChar (Nat.digits_lt_base (by norm_num) hd))
    simpa using this
  rw [hmap, Nat.ofDigits_digits]

/-- What `JSON.stringify` does to one workout inside the collection. -/
def serializeWorkout (w : Workout) : StoredWorkout :=
  { id := w.id
    name := w.name
    exercises := w.exercises
    createdAt := dateToISO w.createdAt }

/-- What `loadWorkouts` does to one stored workout:
`{ ...w, createdAt: new Date(w.createdAt) }`. -/
def parseWorkout (s : StoredWorkout) : Workout :=
  { id := s.id
    name := s.name
    exercises := s.exercises
    createdAt := isoToDate s.createdAt }

/-- What `JSON.stringify` does to one in-memory session. -/
def serializeSession (s : WorkoutSession) : StoredSession :=
  { id := s.id
    workoutId := s.workoutId
    workoutName := s.workoutName
    exercises := s.exercises
    completedAt := dateToISO s.completedAt
    totalSets := s.totalSets
    totalVolume := s.totalVolume }

/-- What the progress list's load does to one stored session:
`{ ...session, completedAt: new Date(session.completedAt) }`. -/
def parseSession (s : StoredSession) : WorkoutSession :=
  { id := s.id
    workoutId := s.workoutId
    workoutName := s.workoutName
    exercises := s.exercises
    completedAt := isoToDate s.completedAt
    totalSets := s.totalSets
    totalVolume := s.totalVolume }

theorem parseWorkout_serializeWorkout (w : Workout) :
    parseWorkout (serializeWorkout w) = w := by
  simp [parseWorkout, serializeWorkout, isoToDate_dateToISO]

theorem parseSession_serializeSession (s : WorkoutSession) :
    parseSession (serializeSession s) = s := by
  simp [parseSession, serializeSession, isoToDate_dateToISO]

/-- The async key-value store, restricted to the three keys the app uses.
`none` models an absent key; a present key holds the parsed JSON value
(dates already in their stored string form). -/
structure Store where
  workouts : Option (List StoredWorkout)
  selectedWorkout : Option String
  sessions : Option (List StoredSession)
deriving Repr, DecidableEq

/-- A store with no key set (first run). -/
def emptyStore : Store := { workouts := none, selectedWorkout := none, sessions := none }

/-- The in-memory state of the `WorkoutManager` component. -/
structure ManagerState where
  workouts : List Workout
  selectedWorkoutId : String
deriving Repr, DecidableEq

/-- The seed data `DEFAULT_WORKOUTS` (workout-manager.tsx).  `t0` is the
wall-clock time observed by the `new Date()` calls at module evaluation. -/
def DEFAULT_WORKOUTS (t0 : Nat) : List Workout :=
  [ { id := "1"
      name := "Push Day"
      exercises :=
        [ { id := "1", name := "Bench Press", sets := 3, reps := 10, weight := 60 }
        , { id := "2", name := "Shoulder Press", sets := 3, reps := 8, weight := 30 } ]
      createdAt := t0 }
  , { id := "2"
      name := "Pull Day"
      exercises :=
        [ { id := "3", name := "Pull-ups", sets := 4, reps := 8, weight := 0 }
        , { id := "4", name := "Rows", sets := 3, reps := 10, weight := 40 } ]
      createdAt := t0 } ]

/-- `saveWorkouts`: `AsyncStorage.setItem(STORAGE_KEY, JSON.stringify(ws))`. -/
def saveWorkouts (ws : List Workout) (st : Store) : Store :=
  { st with workouts := some (ws.map serializeWorkout) }

/-- `saveSelectedWorkout`: `AsyncStorage.setItem(SELECTED_WORKOUT_KEY, id)`. -/
def saveSelectedWorkout (id : String) (st : Store) : Store :=
  { st with selectedWorkout := some id }

/-- Selected-id resolution inside `loadWorkouts`:
`if (storedSelectedId && parsedWorkouts.find(w => w.id === storedSelectedId))`
use it, `else parsedWorkouts[0]?.id || ''`. -/
def resolveSelected (parsed : List Workout) (stored : Option String) : String :=
  match stored with
  | some sid =>
      if sid ≠ "" ∧ parsed.any (fun w => w.id = sid) then sid
      else ((parsed.head?).map Workout.id).getD ""
  | none => ((parsed.head?).map Workout.id).getD ""

/-- `loadWorkouts` (the mount effect of `WorkoutManager`): reads the
workout collection and the selected id; when the collection is present it
is parsed (dates restored) and the selection resolved; when absent the
seed `DEFAULT_WORKOUTS` is installed, the first default selected, and the
seed collection persisted.  `t0` is the module-evaluation wall clock used
by the seed data. -/
def loadWorkouts (st : Store) (t0 : Nat) : ManagerState × Store :=
  match st.workouts with
  | some storedList =>
      let parsed := storedList.map parseWorkout
      ({ workouts := parsed
         selectedWorkoutId := resolveSelected parsed st.selectedWorkout }, st)
  | none =>
      ({ workouts := DEFAULT_WORKOUTS t0
         selectedWorkoutId := (((DEFAULT_WORKOUTS t0).head?).map Workout.id).getD "" },
       saveWorkouts (DEFAULT_WORKOUTS t0) st)

/-- `createNewWorkout`: validates the entered name, then appends a new
workout (trimmed name, no exercises, `Date.now()` id), selects it and
persists collection and selection.  `newId` is the string `Date.now()`
produced, `t` the `new Date()` timestamp.  The third component is the
`Alert.alert` message, if any. -/
def createNewWorkout (name : String) (newId : String) (t : Nat)
    (s : ManagerState) (st : Store) : ManagerState × Store × Option String :=
  if jsTrim name = "" then (s, st, some "Please enter a workout name")
  else
    let w : Workout := { id := newId, name := jsTrim name, exercises := [], createdAt := t }
    let updated := s.workouts ++ [w]
    ({ workouts := updated, selectedWorkoutId := newId },
     saveSelectedWorkout newId (saveWorkouts updated st),
     none)

/-- `deleteWorkout`: refuses when at most one workout remains; otherwise
asks for confirmation (`confirm` is the user's answer to the alert) and on
confirm filters the workout out, moves the selection to the first
remaining workout when the deleted one was selected, persists the
collection and — only when it changed — the selection.  The third
component is the refusal message, if any. -/
def deleteWorkout (workoutId : String) (confirm : Bool)
    (s : ManagerState) (st : Store) : ManagerState × Store × Option String :=
  if s.workouts.length ≤ 1 then (s, st, some "You must have at least one workout")
  else if ¬confirm then (s, st, none)
  else
    let updated := s.workouts.filter (fun w => w.id ≠ workoutId)
    let newSelectedId :=
      if s.selectedWorkoutId = workoutId then ((updated.head?).map Workout.id).getD ""
      else s.selectedWorkoutId
    let st1 := saveWorkouts updated st
    let st2 := if newSelectedId ≠ s.selectedWorkoutId then saveSelectedWorkout newSelectedId st1 else st1
    ({ workouts := updated, selectedWorkoutId := newSelectedId }, st2, none)

/-- `updateWorkoutExercises`: replaces the exercise list of every workout
whose id equals the currently selected id and persists the whole
collection. -/
def updateWorkoutExercises (exercises : List Exercise)
    (s : ManagerState) (st : Store) : ManagerState × Store :=
  let updated := s.workouts.map fun w =>
    if w.id = s.selectedWorkoutId then { w with exercises := exercises } else w
  ({ s with workouts := updated }, saveWorkouts updated st)

/-- `selectWorkout`: sets the selection and persists it. -/
def selectWorkout (workoutId : String) (s : ManagerState) (st : Store) :
    ManagerState × Store :=
  ({ s with selectedWorkoutId := workoutId }, saveSelectedWorkout workoutId st)

/-- The session snapshot built inside `saveWorkoutSession`: `sessId` is
`Date.now().toString()`, `t` the `new Date()` completion time. -/
def buildSession (w : Workout) (sessId : String) (t : Nat) : WorkoutSession :=
  { id := sessId
    workoutId := w.id
    workoutName := w.name
    exercises := w.exercises
    completedAt := t
    totalSets := w.exercises.foldl (fun total ex => total + ex.sets) 0
    totalVolume := w.exercises.foldl (fun total ex => total + (ex.sets : ℚ) * ex.weight) 0 }

/-- `saveWorkoutSession` (the Session Recorder's `complete`): reads the
stored session history (empty when absent), prepends the new snapshot and
writes the whole history back.  The second component is the success
alert's message. -/
def saveWorkoutSession (w : Workout) (sessId : String) (t : Nat)
    (st : Store) : Store × String :=
  let sessions := (st.sessions).getD []
  let updatedSessions := serializeSession (buildSession w sessId t) :: sessions
  ({ st with sessions := some updatedSessions },
   "Great job finishing " ++ w.name ++ "!")

/-- The in-memory state of the `ExerciseList` editor. -/
structure EditorState where
  exercises : List Exercise
  newlyAddedId : Option String
deriving Repr, DecidableEq

/-- `addNewExercise` (exercise-list.tsx): appends a default exercise with
id `Date.now().toString()` (passed as `newId`), reports the full updated
sequence upward via `onUpdateExercises` (the second component) and marks
the new exercise for inline editing. -/
def addNewExercise (newId : String) (e : EditorState) :
    EditorState × List Exercise :=
  let newExercise : Exercise :=
    { id := newId, name := "New Exercise", sets := 3, reps := 10, weight := 0 }
  let updated := e.exercises ++ [newExercise]
  ({ exercises := updated, newlyAddedId := some newId }, updated)

/-- `deleteSession` (progress-list.tsx): asks for confirmation; on confirm
removes the matching entry from the in-memory list and persists the
reduced collection. -/
def deleteSession (sessionId : String) (confirm : Bool)
    (sessions : List WorkoutSession) (st : Store) :
    List WorkoutSession × Store :=
  if ¬confirm then (sessions, st)
  else
    let updatedSessions := sessions.filter (fun s => s.id ≠ sessionId)
    (updatedSessions, { st with sessions := some (updatedSessions.map serializeSession) })

/-- One user-level operation on the workout repository.  The wall-clock
values an operation observes (`Date.now()` ids, timestamps) are recorded
as explicit arguments. -/
inductive Op where
  | create (name newId : String) (t : Nat)
  | remove (workoutId : String) (confirm : Bool)
  | choose (workoutId : String)
  | editExercises (exercises : List Exercise)
  | complete (sessId : String) (t : Nat)
deriving Repr, DecidableEq

/-- Effect of one operation on the manager state and store (alert
messages dropped).  `complete` runs `saveWorkoutSession` on the currently
selected workout when it exists, as the Workout Done button does. -/
def step (op : Op) (p : ManagerState × Store) : ManagerState × Store :=
  match op with
  | .create name newId t =>
      let r := createNewWorkout name newId t p.1 p.2
      (r.1, r.2.1)
  | .remove workoutId confirm =>
      let r := deleteWorkout workoutId confirm p.1 p.2
      (r.1, r.2.1)
  | .choose workoutId => selectWorkout workoutId p.1 p.2
  | .editExercises exercises => updateWorkoutExercises exercises p.1 p.2
  | .complete sessId t =>
      match p.1.workouts.find? (fun w => w.id = p.1.selectedWorkoutId) with
      | some w => (p.1, (saveWorkoutSession w sessId t p.2).1)
      | none => p

/-- Run a sequence of operations. -/
def run (ops : List Op) (p : ManagerState × Store) : ManagerState × Store :=
  ops.foldl (fun q op => step op q) p

/-- Whether the id an operation feeds to `create` is fresh for the current
collection (true for every other operation).  This is the behaviour of
`Date.now().toString()` when the wall clock never repeats across creates. -/
def freshOp (op : Op) (s : ManagerState) : Bool :=
  match op with
  | .create _ newId _ => decide (newId ∉ s.workouts.map Workout.id)
  | _ => true

/-- Whether every `create` along the run of `ops` from `p` is given a
fresh id. -/
def freshRun : List Op → ManagerState × Store → Bool
  | [], _ => true
  | op :: rest, p => freshOp op p.1 && freshRun rest (step op p)

/-- The completion times currently recorded in the stored session
history, in stored order (newest first per the recorder's contract). -/
def completedTimes (st : Store) : List Nat :=
  ((st.sessions).getD []).map (fun s => isoToDate s.completedAt)

/-- A list of times is ordered newest-first (each entry at least the
next). -/
def newestFirst : List Nat → Bool
  | [] => true
  | [_] => true
  | a :: b :: rest => decide (b ≤ a) && newestFirst (b :: rest)

/-- The sequential-call discipline: each `complete` call's wall-clock time
is at least every time already in the history at that call. -/
def timesOk : List Nat → List Nat → Bool
  | [], _ => true
  | t :: rest, hist => hist.all (fun u => decide (u ≤ t)) && timesOk rest (t :: hist)

/-- Run a sequence of `complete` calls (workout, session id, time) against
the store. -/
def runCompletes (jobs : List (Workout × String × Nat)) (st : Store) : Store :=
  jobs.foldl (fun acc j => (saveWorkoutSession j.1 j.2.1 j.2.2 acc).1) st

theorem foldl_add_sets (l : List Exercise) :
    ∀ a : Nat, l.foldl (fun total ex => total + ex.sets) a
      = a + (l.map Exercise.sets).sum := by
  induction l with
  | nil => intro a; simp
  | cons e rest ih =>
      intro a
      simp [List.foldl_cons, ih, Nat.add_assoc]

theorem foldl_add_volume (l : List Exercise) :
    ∀ a : ℚ, l.foldl (fun total ex => total + (ex.sets : ℚ) * ex.weight) a
      = a + (l.map (fun ex => (ex.sets : ℚ) * ex.weight)).sum := by
  induction l with
  | nil => intro a; simp
  | cons e rest ih =>
      intro a
      simp [List.foldl_cons, ih, add_assoc]

/-- C1: for every workout handed to the Session Recorder's `complete`, the
recorded session's `totalSets` is the sum of the exercises' `sets` and its
`totalVolume` the sum of `sets × weight`, both over the exercise sequence
as it is at the moment `complete` is invoked; a later `updateExercises`
mutation of the source workout in the repository leaves the recorded
session history untouched; and on the exercises
`[{sets:3,weight:60},{sets:4,weight:0}]` the session has `totalSets = 7`
and `totalVolume = 180`. -/
theorem complete_total_stats :
    (∀ (w : Workout) (sessId : String) (t : Nat),
      (buildSession w sessId t).totalSets = (w.exercises.map Exercise.sets).sum ∧
      (buildSession w sessId t).totalVolume
        = (w.exercises.map (fun ex => (ex.sets : ℚ) * ex.weight)).sum) ∧
    (∀ (w : Workout) (sessId : String) (t : Nat) (es : List Exercise)
        (s : ManagerState) (st : Store),
      ((updateWorkoutExercises es s (saveWorkoutSession w sessId t st).1).2).sessions
        = ((saveWorkoutSession w sessId t st).1).sessions) ∧
    (buildSession
      { id := "w1", name := "Legs"
        exercises :=
          [ { id := "e1", name := "Squat", sets := 3, reps := 10, weight := 60 }
          , { id := "e2", name := "Lunge", sets := 4, reps := 8, weight := 0 } ]
        createdAt := 0 } "s1" 1).totalSets = 7 ∧
    (buildSession
      { id := "w1", name := "Legs"
        exercises :=
          [ { id := "e1", name := "Squat", sets := 3, reps := 10, weight := 60 }
          , { id := "e2", name := "Lunge", sets := 4, reps := 8, weight := 0 } ]
        createdAt := 0 } "s1" 1).totalVolume = 180 := by
  refine ⟨fun w sessId t => ⟨?_, ?_⟩, fun w sessId t es s st => ?_, ?_, ?_⟩
  · simp [buildSession, foldl_add_sets]
  · simp [buildSession, foldl_add_volume]
  · simp [updateWorkoutExercises, saveWorkouts, saveWorkoutSession]
  · simp [buildSession]
  · simp [buildSession]
    norm_num

/-- C3: `create` rejects blank or whitespace-only names without touching
state or store; for a non-blank name it appends exactly one workout (the
trimmed name, no exercises, the supplied fresh id and timestamp), keeps
every existing workout, selects the new workout and persists both the
collection and the new selection. -/
theorem create_workout_spec (name newId : String) (t : Nat)
    (s : ManagerState) (st : Store) :
    (jsTrim name = "" →
      createNewWorkout name newId t s st = (s, st, some "Please enter a workout name")) ∧
    (jsTrim name ≠ "" →
      (createNewWorkout name newId t s st).1.workouts.length = s.workouts.length + 1 ∧
      (createNewWorkout name newId t s st).1.workouts.take s.workouts.length = s.workouts ∧
      (createNewWorkout name newId t s st).1.workouts.getLast?
        = some { id := newId, name := jsTrim name, exercises := [], createdAt := t } ∧
      (createNewWorkout name newId t s st).1.selectedWorkoutId = newId ∧
      (createNewWorkout name newId t s st).2.1.workouts
        = some (((createNewWorkout name newId t s st).1.workouts).map serializeWorkout) ∧
      (createNewWorkout name newId t s st).2.1.selectedWorkout = some newId ∧
      (createNewWorkout name newId t s st).2.1.sessions = st.sessions ∧
      (createNewWorkout name newId t s st).2.2 = none) := by
  constructor
  · intro h
    simp [createNewWorkout, h]
  · intro h
    simp [createNewWorkout, h, saveWorkouts, saveSelectedWorkout, List.take_left]

/-- C3 witness: a whitespace-only name is rejected with no state change,
and the name `"Leg Day"` appends one workout and selects it. -/
theorem create_workout_spec_witness :
    createNewWorkout "   " "9" 4 { workouts := [], selectedWorkoutId := "" } emptyStore
      = ({ workouts := [], selectedWorkoutId := "" }, emptyStore,
         some "Please enter a workout name") ∧
    (createNewWorkout "Leg Day" "9" 4 { workouts := [], selectedWorkoutId := "" }
        emptyStore).1.workouts.length = 0 + 1 ∧
    (createNewWorkout "Leg Day" "9" 4 { workouts := [], selectedWorkoutId := "" }
        emptyStore).1.selectedWorkoutId = "9" :=
  ⟨(create_workout_spec "   " "9" 4 { workouts := [], selectedWorkoutId := "" }
      emptyStore).1 (by decide),
   (by simpa using ((create_workout_spec "Leg Day" "9" 4
      { workouts := [], selectedWorkoutId := "" } emptyStore).2 (by decide)).1),
   ((create_workout_spec "Leg Day" "9" 4 { workouts := [], selectedWorkoutId := "" }
      emptyStore).2 (by decide)).2.2.2.1⟩

/-- C5: persisting a workout collection through the repository's save path
and reloading it through `loadWorkouts` yields the same collection, with
each `createdAt` restored as a timestamp value (the `Nat`-typed field of
`Workout`) rather than the string stored on disk. -/
theorem workouts_roundtrip (ws : List Workout) (st : Store) (t0 : Nat) :
    (loadWorkouts (saveWorkouts ws st) t0).1.workouts = ws := by
  have h : ((ws.map serializeWorkout).map parseWorkout) = ws := by
    rw [List.map_map]
    have := List.map_congr_left (l := ws) (f := parseWorkout ∘ serializeWorkout) (g := id)
      (fun w _ => parseWorkout_serializeWorkout w)
    simpa using this
  simp [loadWorkouts, saveWorkouts, h]

/-- C6: with no prior store contents, `loadWorkouts` seeds the state with
exactly two default workouts named "Push Day" and "Pull Day", each with
sample exercises, selects "Push Day"'s id, and persists the seeded
collection. -/
theorem load_seeds_defaults (st : Store) (t0 : Nat) (h : st.workouts = none) :
    (loadWorkouts st t0).1.workouts.length = 2 ∧
    (loadWorkouts st t0).1.workouts.map Workout.name = ["Push Day", "Pull Day"] ∧
    (∃ pd, (loadWorkouts st t0).1.workouts.head? = some pd ∧ pd.name = "Push Day" ∧
      (loadWorkouts st t0).1.selectedWorkoutId = pd.id) ∧
    (∀ w ∈ (loadWorkouts st t0).1.workouts, w.exercises ≠ []) ∧
    (loadWorkouts st t0).2.workouts
      = some (((loadWorkouts st t0).1.workouts).map serializeWorkout) := by
  obtain ⟨stw, stsel, stsess⟩ := st
  have h' : stw = none := h
  subst h'
  refine ⟨rfl, rfl, ⟨_, rfl, rfl, rfl⟩, ?_, rfl⟩
  intro w hw
  simp only [loadWorkouts, DEFAULT_WORKOUTS, List.mem_cons, List.not_mem_nil, or_false] at hw
  rcases hw with h1 | h1 <;> subst h1 <;> simp

/-- C6 witness: loading an empty store seeds two workouts and selects
"Push Day"'s id. -/
theorem load_seeds_defaults_witness :
    (loadWorkouts emptyStore 0).1.workouts.length = 2 ∧
    (loadWorkouts emptyStore 0).1.workouts.map Workout.name = ["Push Day", "Pull Day"] :=
  ⟨(load_seeds_defaults emptyStore 0 rfl).1, (load_seeds_defaults emptyStore 0 rfl).2.1⟩

/-- C8: the Exercise Editor's add appends exactly one exercise with the
default fields (name "New Exercise", sets 3, reps 10, weight 0) and the
supplied fresh id, reports the full updated sequence upward, and marks
the new exercise as freshly added for inline editing; adding to an empty
workout yields a single exercise. -/
theorem add_exercise_spec (newId : String) (e : EditorState) :
    (addNewExercise newId e).1.exercises.length = e.exercises.length + 1 ∧
    (addNewExercise newId e).1.exercises.take e.exercises.length = e.exercises ∧
    (addNewExercise newId e).1.exercises.getLast?
      = some { id := newId, name := "New Exercise", sets := 3, reps := 10, weight := 0 } ∧
    (addNewExercise newId e).1.newlyAddedId = some newId ∧
    (addNewExercise newId e).2 = (addNewExercise newId e).1.exercises ∧
    (addNewExercise "42" { exercises := [], newlyAddedId := none }).1.exercises
      = [{ id := "42", name := "New Exercise", sets := 3, reps := 10, weight := 0 }] := by
  refine ⟨?_, ?_, ?_, rfl, rfl, rfl⟩
  · simp [addNewExercise]
  · simp [addNewExercise, List.take_left]
  · simp [addNewExercise]

/-- C9: a confirmed delete of a session id that is not in the history
leaves the in-memory list unchanged, and when the persisted collection is
the serialized image of that list (the steady state after a refresh) the
store is unchanged as well; no failure is reported. -/
theorem delete_absent_session_noop (sessionId : String)
    (sessions : List WorkoutSession) (st : Store)
    (h : ∀ s ∈ sessions, s.id ≠ sessionId) :
    (deleteSession sessionId true sessions st).1 = sessions ∧
    (st.sessions = some (sessions.map serializeSession) →
      (deleteSession sessionId true sessions st).2 = st) := by
  have hfilter : sessions.filter (fun s => !decide (s.id = sessionId)) = sessions :=
    List.filter_eq_self.mpr (fun s hs => by simpa using h s hs)
  constructor
  · show sessions.filter (fun s => decide (s.id ≠ sessionId)) = sessions
    simpa using hfilter
  · intro hsync
    show ({ st with sessions := some ((sessions.filter (fun s => decide (s.id ≠ sessionId))).map serializeSession) } : Store) = st
    have hfilter' : sessions.filter (fun s => decide (s.id ≠ sessionId)) = sessions := by
      simpa using hfilter
    rw [hfilter', ← hsync]

/-- A sample one-session history used to exercise `deleteSession`. -/
def sampleHistory : List WorkoutSession :=
  [{ id := "a", workoutId := "w", workoutName := "W", exercises := [],
     completedAt := 7, totalSets := 0, totalVolume := 0 }]

/-- A store whose session key holds the serialized `sampleHistory`. -/
def sampleHistoryStore : Store :=
  { workouts := none, selectedWorkout := none,
    sessions := some (sampleHistory.map serializeSession) }

/-- C9 witness: deleting id "b" from a one-session history with id "a"
changes neither the list nor the store. -/
theorem delete_absent_session_noop_witness :
    (deleteSession "b" true sampleHistory sampleHistoryStore).1 = sampleHistory ∧
    (deleteSession "b" true sampleHistory sampleHistoryStore).2 = sampleHistoryStore :=
  ⟨(delete_absent_session_noop "b" sampleHistory sampleHistoryStore
      (by intro s hs; simp [sampleHistory] at hs; simp [hs])).1,
   (delete_absent_session_noop "b" sampleHistory sampleHistoryStore
      (by intro s hs; simp [sampleHistory] at hs; simp [hs])).2 rfl⟩

/-- C10: `updateExercises` replaces the exercise sequence of exactly the
workouts carrying the selected id, leaves every other workout unchanged in
place (same id, name, exercises and creation time), keeps the selection,
persists the whole collection and touches no other store key. -/
theorem update_exercises_frame (es : List Exercise) (s : ManagerState) (st : Store) :
    (updateWorkoutExercises es s st).1.workouts.length = s.workouts.length ∧
    (updateWorkoutExercises es s st).1.selectedWorkoutId = s.selectedWorkoutId ∧
    (∀ (i : Nat) (w : Workout), s.workouts[i]? = some w →
      (w.id = s.selectedWorkoutId →
        (updateWorkoutExercises es s st).1.workouts[i]?
          = some { id := w.id, name := w.name, exercises := es, createdAt := w.createdAt }) ∧
      (w.id ≠ s.selectedWorkoutId →
        (updateWorkoutExercises es s st).1.workouts[i]? = some w)) ∧
    (updateWorkoutExercises es s st).2.workouts
      = some (((updateWorkoutExercises es s st).1.workouts).map serializeWorkout) ∧
    (updateWorkoutExercises es s st).2.selectedWorkout = st.selectedWorkout ∧
    (updateWorkoutExercises es s st).2.sessions = st.sessions := by
  refine ⟨by simp [updateWorkoutExercises], rfl, ?_, rfl, rfl, rfl⟩
  intro i w hw
  constructor
  · intro hid
    simp [updateWorkoutExercises, List.getElem?_map, hw, hid]
  · intro hid
    simp [updateWorkoutExercises, List.getElem?_map, hw, hid]

/-- The exercise list used as the replacement input in the C10 witness. -/
def sampleReplacement : List Exercise :=
  [{ id := "9", name := "Dips", sets := 2, reps := 12, weight := 0 }]

/-- The manager state (seed collection, "1" selected) used in the C10
witness. -/
def sampleManagerState : ManagerState :=
  { workouts := DEFAULT_WORKOUTS 0, selectedWorkoutId := "1" }

/-- C10 witness: on the seeded collection with "1" selected, updating with
one exercise rewrites workout "1" in place and leaves workout "2" alone. -/
theorem update_exercises_frame_witness :
    (updateWorkoutExercises sampleReplacement sampleManagerState emptyStore).1.workouts[0]?
      = some { id := "1", name := "Push Day", exercises := sampleReplacement, createdAt := 0 } ∧
    (updateWorkoutExercises sampleReplacement sampleManagerState emptyStore).1.workouts[1]?
      = some { id := "2"
               name := "Pull Day"
               exercises :=
                 [ { id := "3", name := "Pull-ups", sets := 4, reps := 8, weight := 0 }
                 , { id := "4", name := "Rows", sets := 3, reps := 10, weight := 40 } ]
               createdAt := 0 } :=
  ⟨((update_exercises_frame sampleReplacement sampleManagerState emptyStore).2.2.1 0
      { id := "1", name := "Push Day"
        exercises :=
          [ { id := "1", name := "Bench Press", sets := 3, reps := 10, weight := 60 }
          , { id := "2", name := "Shoulder Press", sets := 3, reps := 8, weight := 30 } ]
        createdAt := 0 } rfl).1 rfl,
   ((update_exercises_frame sampleReplacement sampleManagerState emptyStore).2.2.1 1
      { id := "2"
        name := "Pull Day"
        exercises :=
          [ { id := "3", name := "Pull-ups", sets := 4, reps := 8, weight := 0 }
          , { id := "4", name := "Rows", sets := 3, reps := 10, weight := 40 } ]
        createdAt := 0 } rfl).2 (by decide)⟩

theorem completedTimes_save (w : Workout) (sessId : String) (t : Nat) (st : Store) :
    completedTimes ((saveWorkoutSession w sessId t st).1) = t :: completedTimes st := by
  simp [completedTimes, saveWorkoutSession, serializeSession, buildSession, isoToDate_dateToISO]

theorem newestFirst_cons (t : Nat) (l : List Nat)
    (hall : l.all (fun u => decide (u ≤ t)) = true)
    (hl : newestFirst l = true) : newestFirst (t :: l) = true := by
  cases l with
  | nil => rfl
  | cons a rest =>
      have ha : a ≤ t := by
        have := List.all_eq_true.mp hall a (List.mem_cons_self a rest)
        simpa using this
      simp [newestFirst, ha, hl]

theorem runCompletes_times (jobs : List (Workout × String × Nat)) :
    ∀ st : Store, newestFirst (completedTimes st) = true →
      timesOk (jobs.map (fun j => j.2.2)) (completedTimes st) = true →
      completedTimes (runCompletes jobs st)
          = (jobs.map (fun j => j.2.2)).reverse ++ completedTimes st ∧
        newestFirst (completedTimes (runCompletes jobs st)) = true := by
  induction jobs with
  | nil => intro st h1 _; exact ⟨by simp [runCompletes], h1⟩
  | cons j rest ih =>
      intro st h1 h2
      have hstep : runCompletes (j :: rest) st
          = runCompletes rest ((saveWorkoutSession j.1 j.2.1 j.2.2 st).1) := rfl
      rw [List.map_cons, timesOk, Bool.and_eq_true] at h2
      obtain ⟨hall, h2'⟩ := h2
      have hct : completedTimes ((saveWorkoutSession j.1 j.2.1 j.2.2 st).1)
          = j.2.2 :: completedTimes st := completedTimes_save _ _ _ _
      have h1' : newestFirst (completedTimes ((saveWorkoutSession j.1 j.2.1 j.2.2 st).1)) = true := by
        rw [hct]; exact newestFirst_cons _ _ hall h1
      have h2'' : timesOk (rest.map (fun j => j.2.2))
          (completedTimes ((saveWorkoutSession j.1 j.2.1 j.2.2 st).1)) = true := by
        rw [hct]; exact h2'
      obtain ⟨ha, hb⟩ := ih _ h1' h2''
      refine ⟨?_, by rw [hstep]; exact hb⟩
      rw [hstep, ha, hct]
      simp [List.append_assoc]

/-- C4: the Session Recorder's `complete` reads the stored session history
(empty when the key is absent), prepends the newly built session, and
writes the whole history back; consequently, starting from a newest-first
history, any number of sequential `complete` calls (times nondecreasing
and at least every already-recorded time) leaves the stored history
ordered newest-first by completion time, with the recorded times being
the call times, newest first. -/
theorem complete_prepends_newest_first
    (jobs : List (Workout × String × Nat)) (st : Store)
    (h1 : newestFirst (completedTimes st) = true)
    (h2 : timesOk (jobs.map (fun j => j.2.2)) (completedTimes st) = true) :
    (∀ (w : Workout) (sessId : String) (t : Nat) (st' : Store),
      ((saveWorkoutSession w sessId t st').1).sessions
        = some (serializeSession (buildSession w sessId t) :: (st'.sessions).getD [])) ∧
    completedTimes (runCompletes jobs st)
        = (jobs.map (fun j => j.2.2)).reverse ++ completedTimes st ∧
    newestFirst (completedTimes (runCompletes jobs st)) = true :=
  ⟨fun _ _ _ _ => rfl,
   (runCompletes_times jobs st h1 h2).1,
   (runCompletes_times jobs st h1 h2).2⟩

/-- Two sequential `complete` calls at times 5 then 9, used in the C4
witness. -/
def sampleJobs : List (Workout × String × Nat) :=
  [ ({ id := "w1", name := "A", exercises := [], createdAt := 0 }, "s1", 5)
  , ({ id := "w1", name := "A", exercises := [], createdAt := 0 }, "s2", 9) ]

/-- C4 witness: two sequential completes at times 5 then 9 on an empty
store record the times newest-first. -/
theorem complete_prepends_newest_first_witness :
    completedTimes (runCompletes sampleJobs emptyStore)
      = (sampleJobs.map (fun j => j.2.2)).reverse ++ completedTimes emptyStore ∧
    newestFirst (completedTimes (runCompletes sampleJobs emptyStore)) = true :=
  ⟨(complete_prepends_newest_first sampleJobs emptyStore (by decide) (by decide)).2.1,
   (complete_prepends_newest_first sampleJobs emptyStore (by decide) (by decide)).2.2⟩

/-- C7: on a collection with more than one workout, a confirmed
`delete(id)` keeps exactly the workouts whose id differs (each untouched,
in order); when the deleted id was the selected one the selection moves to
the first remaining workout (or empty when none remain), otherwise it is
unchanged; the collection is persisted, and the selection is persisted
exactly when it changed; nothing else in the store is touched and no
refusal is raised. -/
theorem delete_workout_spec (workoutId : String) (s : ManagerState) (st : Store)
    (hlen : 1 < s.workouts.length) :
    ((deleteWorkout workoutId true s st).1.workouts).Sublist s.workouts ∧
    (∀ w : Workout, w ∈ (deleteWorkout workoutId true s st).1.workouts ↔
      (w ∈ s.workouts ∧ w.id ≠ workoutId)) ∧
    (s.selectedWorkoutId = workoutId →
      (deleteWorkout workoutId true s st).1.selectedWorkoutId
        = (((deleteWorkout workoutId true s st).1.workouts.head?).map Workout.id).getD "") ∧
    (s.selectedWorkoutId ≠ workoutId →
      (deleteWorkout workoutId true s st).1.selectedWorkoutId = s.selectedWorkoutId) ∧
    (deleteWorkout workoutId true s st).2.1.workouts
      = some (((deleteWorkout workoutId true s st).1.workouts).map serializeWorkout) ∧
    ((deleteWorkout workoutId true s st).1.selectedWorkoutId ≠ s.selectedWorkoutId →
      (deleteWorkout workoutId true s st).2.1.selectedWorkout
        = some (deleteWorkout workoutId true s st).1.selectedWorkoutId) ∧
    ((deleteWorkout workoutId true s st).1.selectedWorkoutId = s.selectedWorkoutId →
      (deleteWorkout workoutId true s st).2.1.selectedWorkout = st.selectedWorkout) ∧
    (deleteWorkout workoutId true s st).2.1.sessions = st.sessions ∧
    (deleteWorkout workoutId true s st).2.2 = none := by
  have hcond : ¬(s.workouts.length ≤ 1) := Nat.not_le.mpr hlen
  refine ⟨?_, ?_, ?_, ?_, ?_, ?_, ?_, ?_, ?_⟩
  · simp [deleteWorkout, hcond]
  · intro w; simp [deleteWorkout, hcond]
  · intro hsel; simp [deleteWorkout, hcond, hsel]
  · intro hsel; simp [deleteWorkout, hcond, hsel]
  · by_cases hch : (deleteWorkout workoutId true s st).1.selectedWorkoutId = s.selectedWorkoutId <;>
      simp [deleteWorkout, hcond, saveWorkouts, saveSelectedWorkout] <;> split <;> rfl
  · intro hch
    simp only [deleteWorkout, if_neg hcond] at hch ⊢
    simp at hch ⊢
    rw [if_pos hch]
    simp [saveSelectedWorkout, hch.1]
  · intro hch
    simp only [deleteWorkout, if_neg hcond] at hch ⊢
    simp at hch ⊢
    rw [if_neg]
    · simp [saveWorkouts]
    · intro hcon
      exact hcon.2 (hch hcon.1)
  · simp only [deleteWorkout, if_neg hcond]
    split <;> simp [saveWorkouts, saveSelectedWorkout]
    split <;> rfl
  · simp [deleteWorkout, hcond]

/-- C7 witness: deleting the selected workout "1" from the seeded
collection moves the selection to the first remaining workout and persists
the filtered collection. -/
theorem delete_workout_spec_witness :
    (deleteWorkout "1" true sampleManagerState emptyStore).1.selectedWorkoutId
      = (((deleteWorkout "1" true sampleManagerState emptyStore).1.workouts.head?).map
          Workout.id).getD "" ∧
    (deleteWorkout "1" true sampleManagerState emptyStore).2.1.workouts
      = some (((deleteWorkout "1" true sampleManagerState emptyStore).1.workouts).map
          serializeWorkout) :=
  ⟨(delete_workout_spec "1" sampleManagerState emptyStore (by decide)).2.2.1 rfl,
   (delete_workout_spec "1" sampleManagerState emptyStore (by decide)).2.2.2.2.1⟩

theorem filter_id_ne_nil (ws : List Workout) (tid : String)
    (hnd : (ws.map Workout.id).Nodup) (hlen : 2 ≤ ws.length) :
    ws.filter (fun w => w.id ≠ tid) ≠ [] := by
  intro hnil
  rw [List.filter_eq_nil_iff] at hnil
  match ws, hlen with
  | a :: b :: rest, _ =>
      have ha : a.id = tid := by simpa using hnil a (by simp)
      have hb : b.id = tid := by simpa using hnil b (by simp)
      rw [List.map_cons, List.map_cons, List.nodup_cons] at hnd
      exact hnd.1 (by simp [ha, hb])

theorem ids_after_update (ws : List Workout) (sel : String) (es : List Exercise) :
    ((ws.map (fun w => if w.id = sel then { w with exercises := es } else w)).map Workout.id)
      = ws.map Workout.id := by
  rw [List.map_map]
  apply List.map_congr_left
  intro w _
  by_cases h : w.id = sel <;> simp [h]

theorem step_preserves_inv (op : Op) (p : ManagerState × Store)
    (hne : p.1.workouts ≠ []) (hnd : (p.1.workouts.map Workout.id).Nodup)
    (hf : freshOp op p.1 = true) :
    (step op p).1.workouts ≠ [] ∧ ((step op p).1.workouts.map Workout.id).Nodup := by
  cases op with
  | create name newId t =>
      by_cases hb : jsTrim name = ""
      · simpa [step, createNewWorkout, hb] using ⟨hne, hnd⟩
      · have hfresh : newId ∉ p.1.workouts.map Workout.id := by
          simpa [freshOp] using hf
        constructor
        · simp [step, createNewWorkout, hb]
        · simpa [step, createNewWorkout, hb, List.map_append] using
            List.Nodup.append hnd (List.nodup_singleton newId)
              (List.disjoint_singleton.mpr hfresh)
  | remove workoutId confirm =>
      by_cases h1 : p.1.workouts.length ≤ 1
      · simpa [step, deleteWorkout, h1] using ⟨hne, hnd⟩
      · cases confirm with
        | false => simpa [step, deleteWorkout, h1] using ⟨hne, hnd⟩
        | true =>
            have h2 : 2 ≤ p.1.workouts.length := by omega
            constructor
            · have := filter_id_ne_nil p.1.workouts workoutId hnd h2
              simpa [step, deleteWorkout, h1] using this
            · have hsub : ((p.1.workouts.filter (fun w => w.id ≠ workoutId)).map Workout.id).Sublist
                  (p.1.workouts.map Workout.id) := (List.filter_sublist _).map _
              have := hnd.sublist hsub
              simpa [step, deleteWorkout, h1] using this
  | choose wid => simpa [step, selectWorkout] using ⟨hne, hnd⟩
  | editExercises es =>
      constructor
      · simpa [step, updateWorkoutExercises] using hne
      · simp only [step, updateWorkoutExercises]
        rw [ids_after_update]
        exact hnd
  | complete sid t =>
      cases hfind : p.1.workouts.find? (fun w => w.id = p.1.selectedWorkoutId) with
      | some w => simpa [step, hfind] using ⟨hne, hnd⟩
      | none => simpa [step, hfind] using ⟨hne, hnd⟩

theorem run_preserves_inv (ops : List Op) :
    ∀ p : ManagerState × Store, p.1.workouts ≠ [] → (p.1.workouts.map Workout.id).Nodup →
      freshRun ops p = true →
      (run ops p).1.workouts ≠ [] ∧ ((run ops p).1.workouts.map Workout.id).Nodup := by
  induction ops with
  | nil => intro p h1 h2 _; exact ⟨h1, h2⟩
  | cons op rest ih =>
      intro p h1 h2 hf
      rw [freshRun, Bool.and_eq_true] at hf
      have hstep := step_preserves_inv op p h1 h2 hf.1
      have hrun : run (op :: rest) p = run rest (step op p) := rfl
      rw [hrun]
      exact ih _ hstep.1 hstep.2 hf.2

/-- C2 counterexample: from the seeded non-empty collection, the
reachable sequence delete "1", create twice within the same millisecond
(both creates observe `Date.now() = 5` and thus the same id "5"),
delete "2", delete "5" passes every length guard — each delete sees at
least two workouts — yet leaves the collection empty, because delete
filters out every workout with the given id.  So as stated, over all
operation sequences the code allows an initialized non-empty collection
to become empty. -/
theorem delete_can_empty_collection :
    (loadWorkouts emptyStore 0).1.workouts ≠ [] ∧
    (run [Op.remove "1" true, Op.create "A" "5" 5, Op.create "B" "5" 5,
      Op.remove "2" true, Op.remove "5" true]
      (loadWorkouts emptyStore 0)).1.workouts = [] := by
  decide

/-- C2 (amended): deletion is refused, with a validation message and no
state or store change, whenever exactly one workout remains; and provided
every `create` along a run is given an id not already in the collection
(as when the wall clock never repeats across creates), an initialized
non-empty collection with distinct ids stays non-empty under every
sequence of operations. -/
theorem delete_guard_and_nonempty_invariant :
    (∀ (workoutId : String) (confirm : Bool) (s : ManagerState) (st : Store),
      s.workouts.length = 1 →
        deleteWorkout workoutId confirm s st
          = (s, st, some "You must have at least one workout")) ∧
    (∀ (ops : List Op) (p : ManagerState × Store),
      p.1.workouts ≠ [] → (p.1.workouts.map Workout.id).Nodup →
      freshRun ops p = true → (run ops p).1.workouts ≠ []) :=
  ⟨fun _ _ s st h => by simp [deleteWorkout, h],
   fun ops p h1 h2 hf => (run_preserves_inv ops p h1 h2 hf).1⟩

/-- C2 witness: on a one-workout collection delete is refused verbatim,
and a fresh-id run from the seed state keeps the collection non-empty. -/
theorem delete_guard_and_nonempty_invariant_witness :
    deleteWorkout "2" true
      { workouts := [{ id := "2", name := "Pull Day", exercises := [], createdAt := 0 }],
        selectedWorkoutId := "2" } emptyStore
      = ({ workouts := [{ id := "2", name := "Pull Day", exercises := [], createdAt := 0 }],
           selectedWorkoutId := "2" }, emptyStore,
         some "You must have at least one workout") ∧
    (run [Op.remove "1" true, Op.create "A" "5" 5]
      (loadWorkouts emptyStore 0)).1.workouts ≠ [] :=
  ⟨delete_guard_and_nonempty_invariant.1 "2" true
      { workouts := [{ id := "2", name := "Pull Day", exercises := [], createdAt := 0 }],
        selectedWorkoutId := "2" } emptyStore rfl,
   delete_guard_and_nonempty_invariant.2 [Op.remove "1" true, Op.create "A" "5" 5]
      (loadWorkouts emptyStore 0) (by decide) (by decide) (by decide)⟩

end PumpIt
